import Mathlib

/-!
# Verification of the DevScope AI-engine pipeline

Shallow embedding of the classification / delivery pipeline of the DevScope
repository (files under src/ai-engine/) together with proofs about the
properties stated in the specification.

Conventions of the embedding:
* Python floats are modelled as exact rationals (ℚ); the fixed per-call cost
  estimate 0.005 is the rational 1/200.
* Wall-clock time (time.time, asyncio.sleep) is modelled by explicit rational
  timestamps; a sleep of d seconds advances the clock by exactly d.
* JSON values returned by the remote model are modelled by the inductive
  type JVal below; Python dicts appear as association lists.
* Fallible effects (the HTTP call to OpenAI, the HTTP call to the delivery
  sink, reading a possibly corrupt queue file) are modelled by explicit
  oracle arguments describing the outcome of the effect.
-/

/-- JSON values, as produced by json.loads in the source.  Python bools are
kept as a separate constructor; note that in Python a bool is an int subclass,
which matters for the isinstance check in the response validator. -/
inductive JVal where
  | str (s : String)
  | num (q : ℚ)
  | jbool (b : Bool)
  | null
  | arr (xs : List JVal)
  | obj (fields : List (String × JVal))

/-- The fixed productivity label set, from CommitAnalyzer.PRODUCTIVITY_LABELS
(analyzer.py lines 22-33). -/
def PRODUCTIVITY_LABELS : List String :=
  ["High Focus", "Distracted", "Refactoring", "Bug Fixing", "Research Spike",
   "Feature Development", "Testing", "Documentation", "Code Review",
   "Setup/Configuration"]

/-- Python isinstance(x, (int, float)): true for numbers and also for bools,
since bool is a subclass of int. -/
def isNumericJVal : JVal → Bool
  | .num _ => true
  | .jbool _ => true
  | _ => false

/-- Numeric value used by the comparisons 0 <= confidence <= 1 in the
validator; Python True compares as 1 and False as 0. -/
def jvalNumValue : JVal → ℚ
  | .num q => q
  | .jbool b => if b then 1 else 0
  | _ => 0

/-- CommitAnalyzer._validate_analysis_response (analyzer.py lines 237-252):
requires the three fields label/confidence/reasoning to be present, the label
to be a member of PRODUCTIVITY_LABELS, and the confidence to pass
isinstance(·, (int, float)) and lie in [0, 1].  A non-dict response never
validates: in the source, a non-dict payload either fails the membership
tests or raises a TypeError inside the try of _call_openai_api, and both
paths end in a refusal (None). -/
def validateAnalysisResponse : JVal → Bool
  | .obj fields =>
      match fields.lookup "label", fields.lookup "confidence",
            fields.lookup "reasoning" with
      | some lab, some conf, some _ =>
          (match lab with
           | .str s => PRODUCTIVITY_LABELS.contains s
           | _ => false)
          && isNumericJVal conf
          && decide (0 ≤ jvalNumValue conf)
          && decide (jvalNumValue conf ≤ 1)
      | _, _, _ => false
  | _ => false

/-- Configuration of CommitAnalyzer.__init__ (analyzer.py lines 35-51). -/
structure AnalyzerConfig where
  maxRequestsPerMinute : ℕ
  monthlyBudget : ℚ

/-- Mutable state of a CommitAnalyzer instance: the persisted cache
(identity → cached analysis dict), the sliding-window list of call
timestamps, the request counter and the running estimated cost. -/
structure AnalyzerState where
  cache : List (String × JVal)
  requestTimes : List ℚ
  requestCount : ℕ
  estimatedCost : ℚ

/-- Cache lookup, `commit_id in self.cache` / `self.cache[commit_id]`
(analyzer.py lines 84-86). -/
def lookupCache (st : AnalyzerState) (commitId : String) : Option JVal :=
  st.cache.lookup commitId

/-- The pruning step of _check_rate_limits (analyzer.py line 259):
`[t for t in self.request_times if now - t < 60]`. -/
def pruneTimes (now : ℚ) (times : List ℚ) : List ℚ :=
  times.filter (fun t => decide (now - t < 60))

/-- The wait-and-recheck loop of _check_rate_limits (analyzer.py lines
261-272), acting on the already pruned timestamp list.  If the pruned window
holds at least the per-minute ceiling, the source computes
wait_time = 60 - (now - request_times[0]), sleeps exactly that long and
recurses (the recursive call re-reads the clock and re-prunes, which is the
inlined pruneTimes in the recursive call below); otherwise it appends the
current time and admits.  The [] branch under a ceiling of 0 is unreachable
in the source for a positive ceiling; there the source would raise an
IndexError on request_times[0].  Returns (admission time, new timestamp
list). -/
def rateLoopGo (maxReq : ℕ) (now : ℚ) (pruned : List ℚ) : ℚ × List ℚ :=
  if maxReq ≤ pruned.length then
    match pruned with
    | [] => (now, [now])
    | t0 :: rest =>
        if 0 < 60 - (now - t0) then
          rateLoopGo maxReq (now + (60 - (now - t0)))
            (pruneTimes (now + (60 - (now - t0))) (t0 :: rest))
        else (now, (t0 :: rest) ++ [now])
  else (now, pruned ++ [now])
termination_by pruned.length
decreasing_by
  have hcond : (fun t => decide (now + (60 - (now - t0)) - t < 60)) t0 = false := by
    simp only [decide_eq_false_iff_not, not_lt]
    have : now + (60 - (now - t0)) - t0 = 60 := by ring
    rw [this]
  simp only [pruneTimes, List.filter_cons, hcond]
  exact Nat.lt_succ_of_le (List.length_filter_le _ _)

/-- CommitAnalyzer._check_rate_limits (analyzer.py lines 254-272).  The
source always eventually admits (it waits instead of refusing), records the
admission time in the timestamp list, and returns True; the value returned
here is the pair (admission time, updated timestamp list). -/
def checkRateLimits (maxReq : ℕ) (now : ℚ) (times : List ℚ) : ℚ × List ℚ :=
  rateLoopGo maxReq now (pruneTimes now times)

/-- CommitAnalyzer._check_budget (analyzer.py lines 274-284): refuse iff
estimated_cost + 0.005 would strictly exceed the monthly budget. -/
def checkBudget (cfg : AnalyzerConfig) (st : AnalyzerState) : Bool :=
  if st.estimatedCost + 1/200 > cfg.monthlyBudget then false else true

/-- CommitAnalyzer._update_cost_tracking (analyzer.py lines 286-288). -/
def updateCostTracking (st : AnalyzerState) : AnalyzerState :=
  { st with estimatedCost := st.estimatedCost + 1/200 }

/-- Outcome of the remote OpenAI call, seen from _call_openai_api: the HTTP
request raised (apiError), the returned content failed json.loads (badJson),
or it parsed to a JSON value. -/
inductive ApiResult where
  | apiError
  | badJson
  | json (j : JVal)

/-- CommitAnalyzer._call_openai_api (analyzer.py lines 189-235): on a parsed
JSON response that validates, increment request_count and return it;
on a validation failure, a JSON decode error or an API exception, return
None.  The state is otherwise untouched. -/
def callOpenaiApi (st : AnalyzerState) (api : ApiResult) :
    Option JVal × AnalyzerState :=
  match api with
  | .apiError => (none, st)
  | .badJson => (none, st)
  | .json j =>
      if validateAnalysisResponse j then
        (some j, { st with requestCount := st.requestCount + 1 })
      else (none, st)

/-- Instrumentation: how many remote calls, rate-limit checks and budget
checks one analyze_commit invocation performed. -/
structure Effects where
  remoteCalls : ℕ
  rateChecks : ℕ
  budgetChecks : ℕ

/-- CommitAnalyzer.analyze_commit (analyzer.py lines 71-118) for one commit
identity.  now is the wall-clock time on entry; api is the outcome the
remote model would produce for this prompt.  Order of operations as in the
source: cache lookup, then the rate-limit check (which always admits after
waiting and appends its admission timestamp), then the budget check, then
the remote call; on a validated response the result is cached and the cost
tracker updated, otherwise nothing further changes.  The refusal branch
`return None` after a False rate check (line 91) is unreachable because
_check_rate_limits always returns True. -/
def analyzeCommit (cfg : AnalyzerConfig) (st : AnalyzerState)
    (commitId : String) (now : ℚ) (api : ApiResult) :
    Option JVal × AnalyzerState × Effects :=
  match lookupCache st commitId with
  | some cached => (some cached, st, ⟨0, 0, 0⟩)
  | none =>
      let r := checkRateLimits cfg.maxRequestsPerMinute now st.requestTimes
      let st1 := { st with requestTimes := r.2 }
      if checkBudget cfg st1 then
        match callOpenaiApi st1 api with
        | (some j, st2) =>
            let st3 := { st2 with cache := (commitId, j) :: st2.cache }
            (some j, updateCostTracking st3, ⟨1, 1, 1⟩)
        | (none, st2) => (none, st2, ⟨1, 1, 1⟩)
      else (none, st1, ⟨0, 1, 1⟩)

/-- Driver for a sequence of analyze_commit invocations (the single-threaded
pipeline loop): each request carries the commit identity, the wall-clock
time of the invocation and the oracle outcome for the remote call. -/
def runAnalyzer (cfg : AnalyzerConfig) (st : AnalyzerState)
    (reqs : List (String × ℚ × ApiResult)) : AnalyzerState :=
  reqs.foldl (fun s r => (analyzeCommit cfg s r.1 r.2.1 r.2.2).2.1) st

/-! ## Prompt template selection (prompts/classification_prompts.py) -/

/-- The four module-level prompt templates of classification_prompts.py. -/
inductive PromptTemplate where
  | mergeCommit
  | largeCommit
  | smallCommit
  | standard
deriving DecidableEq

/-- The template-routing step of get_analysis_prompt
(classification_prompts.py lines 183-197): total_changes is
additions + deletions; a merge commit gets the merge template; else more
than 20 changed files (len(files_changed)) or more than 500 total changes
gets the large template; else fewer than 10 total changes gets the small
template; else the standard template. -/
def getAnalysisPromptTemplate (isMerge : Bool) (numFilesChanged : ℕ)
    (additions deletions : ℕ) : PromptTemplate :=
  let totalChanges := additions + deletions
  if isMerge then .mergeCommit
  else if 20 < numFilesChanged || 500 < totalChanges then .largeCommit
  else if totalChanges < 10 then .smallCommit
  else .standard

/-! ## Delivery client and offline queue (db_client.py) -/

/-- Outcome of the synchronous POST to the downstream sink inside
_send_to_backend: an HTTP response with some status code, or a network /
unexpected error (aiohttp.ClientError or any other exception). -/
inductive SendOutcome where
  | status (code : ℕ)
  | networkError
deriving DecidableEq

/-- BackendAPIClient._send_to_backend (db_client.py lines 169-200): returns
True exactly for status 200 or 201; every other status and every raised
error returns False. -/
def sendToBackend : SendOutcome → Bool
  | .status code => code == 200 || code == 201
  | .networkError => false

/-- One entry of the offline queue file: enqueue timestamp, the opaque
mapped activity payload, and the retry counter (db_client.py lines
211-215). -/
structure OfflineEntry (α : Type) where
  timestamp : ℚ
  data : α
  retryCount : ℕ
deriving DecidableEq

/-- State of the offline queue file on disk: absent, present but not
parseable as JSON, or parseable to a list of entries. -/
inductive QueueFile (α : Type) where
  | missing
  | corrupt
  | parsed (entries : List (OfflineEntry α))
deriving DecidableEq

/-- The load step of _store_offline (db_client.py lines 217-225):
offline_data starts as []; a missing file leaves it empty, a corrupt file is
swallowed by the inner except and also leaves it empty. -/
def loadOfflineData {α : Type} : QueueFile α → List (OfflineEntry α)
  | .missing => []
  | .corrupt => []
  | .parsed entries => entries

/-- BackendAPIClient._store_offline (db_client.py lines 202-238): append a
fresh entry with retry_count 0 to whatever loaded, and rewrite the whole
file with the result.  The returned list is the new file content. -/
def storeOffline {α : Type} (file : QueueFile α) (now : ℚ) (payload : α) :
    List (OfflineEntry α) :=
  loadOfflineData file ++ [⟨now, payload, 0⟩]

/-- BackendAPIClient.store_analysis (db_client.py lines 56-86) after the
payload has been mapped: one synchronous delivery attempt; on success the
queue file is untouched and True is returned; on failure the payload is
enqueued offline and False is returned. -/
def storeAnalysis {α : Type} (outcome : SendOutcome) (file : QueueFile α)
    (now : ℚ) (payload : α) : Bool × QueueFile α :=
  if sendToBackend outcome then (true, file)
  else (false, .parsed (storeOffline file now payload))

/-- The per-entry loop of retry_offline_data (db_client.py lines 264-279):
returns (successful, failed, data of the entries actually attempted), in
source order.  An entry at or above the retry cap of 5 is appended to
failed without any delivery attempt; otherwise delivery is attempted, a
success goes to successful, a failure is kept in failed with its retry
count incremented. -/
def retrySweepGo {α : Type} (send : α → Bool) :
    List (OfflineEntry α) →
    List (OfflineEntry α) × List (OfflineEntry α) × List α
  | [] => ([], [], [])
  | e :: rest =>
      let r := retrySweepGo send rest
      if 5 ≤ e.retryCount then (r.1, e :: r.2.1, r.2.2)
      else if send e.data then (e :: r.1, r.2.1, e.data :: r.2.2)
      else (r.1, { e with retryCount := e.retryCount + 1 } :: r.2.1,
            e.data :: r.2.2)

/-- Retry statistics returned by retry_offline_data. -/
structure RetryStats where
  attempted : ℕ
  successful : ℕ
  failed : ℕ
deriving DecidableEq

/-- BackendAPIClient.retry_offline_data (db_client.py lines 240-302): a
missing file and an empty queue return zero stats without touching the
file; an unparseable file raises json.JSONDecodeError, is caught by the
outer except and also returns zero stats leaving the file unchanged.
Otherwise every entry below the retry cap is attempted; the file is
rewritten with the failed entries, or removed when none failed.  send is
the oracle for _send_to_backend on each payload; the last component lists
the payloads actually attempted. -/
def retryOfflineData {α : Type} (send : α → Bool) (file : QueueFile α) :
    QueueFile α × RetryStats × List α :=
  match file with
  | .missing => (.missing, ⟨0, 0, 0⟩, [])
  | .corrupt => (.corrupt, ⟨0, 0, 0⟩, [])
  | .parsed [] => (.parsed [], ⟨0, 0, 0⟩, [])
  | .parsed (e :: rest) =>
      let r := retrySweepGo send (e :: rest)
      let newFile : QueueFile α :=
        if r.2.1.isEmpty then .missing else .parsed r.2.1
      (newFile, ⟨(e :: rest).length, r.1.length, r.2.1.length⟩, r.2.2)

/-! ## Admission traces of the governor -/

/-- Number of recorded timestamps inside the trailing 60-second window
ending at T, i.e. inside the half-open interval (T - 60, T]. -/
def windowCount (times : List ℚ) (T : ℚ) : ℕ :=
  (times.filter (fun t => decide (T - 60 < t) && decide (t ≤ T))).length

/-- A sequence of admission requests against one governor instance: starting
at clock time now with recorded timestamp list times, each request arrives a
delay d ≥ 0 after the previous request finished (the pipeline is
single-threaded, so the next _check_rate_limits cannot start before the
previous one returned), and _check_rate_limits runs once per request.
Returns the chronological list of admission timestamps. -/
def runGov (maxReq : ℕ) : ℚ → List ℚ → List ℚ → List ℚ
  | _, _, [] => []
  | now, times, d :: ds =>
      let r := checkRateLimits maxReq (now + d) times
      r.1 :: runGov maxReq r.1 r.2 ds


/-- A well-formed classifier response, used as a concrete test vector. -/
def sampleValidResponse : JVal :=
  .obj [("label", .str "Bug Fixing"), ("confidence", .num (17/20)),
        ("reasoning", .str "fix keyword in message"),
        ("indicators", .arr [.str "fix keyword"])]

/-- A schema-invalid classifier response (label outside the fixed set),
used as a concrete test vector. -/
def sampleInvalidResponse : JVal :=
  .obj [("label", .str "Napping"), ("confidence", .num (17/20)),
        ("reasoning", .str "unclear")]

/-! ## Theorems -/

section Claims

/-- Helper: the wait-and-recheck loop immediately admits when the pruned
window is below the ceiling. -/
theorem rateLoopGo_of_lt {maxReq : ℕ} {now : ℚ} {pruned : List ℚ}
    (h : pruned.length < maxReq) :
    rateLoopGo maxReq now pruned = (now, pruned ++ [now]) := by
  unfold rateLoopGo
  simp [Nat.not_le.mpr h]

/-- Helper: _check_rate_limits admits at once when the pruned window is
below the ceiling. -/
theorem checkRateLimits_of_lt {maxReq : ℕ} {now : ℚ} {times : List ℚ}
    (h : (pruneTimes now times).length < maxReq) :
    checkRateLimits maxReq now times = (now, pruneTimes now times ++ [now]) := by
  unfold checkRateLimits
  exact rateLoopGo_of_lt h

/-- C5: prompt template selection is a deterministic function of the stats
and the is-merge flag, in priority order merge, then large (more than 20
files or more than 500 total changed lines), then small (fewer than 10
total changed lines), then standard; 600 lines over 25 files selects the
large template and 4 total lines selects the small template. -/
theorem prompt_template_selection (isMerge : Bool) (nf a d : ℕ) :
    (isMerge = true → getAnalysisPromptTemplate isMerge nf a d = .mergeCommit) ∧
    (isMerge = false → (20 < nf ∨ 500 < a + d) →
      getAnalysisPromptTemplate isMerge nf a d = .largeCommit) ∧
    (isMerge = false → nf ≤ 20 → a + d ≤ 500 → a + d < 10 →
      getAnalysisPromptTemplate isMerge nf a d = .smallCommit) ∧
    (isMerge = false → nf ≤ 20 → a + d ≤ 500 → 10 ≤ a + d →
      getAnalysisPromptTemplate isMerge nf a d = .standard) ∧
    getAnalysisPromptTemplate false 25 600 0 = .largeCommit ∧
    getAnalysisPromptTemplate false 1 3 1 = .smallCommit := by
  refine ⟨?_, ?_, ?_, ?_, by decide, by decide⟩
  · intro h; simp [getAnalysisPromptTemplate, h]
  · rintro h (h1 | h1) <;> simp [getAnalysisPromptTemplate, h, h1]
  · intro h h1 h2 h3
    have c2 : ¬(20 < nf ∨ 500 < a + d) := by omega
    simp [getAnalysisPromptTemplate, h, c2, h3]
  · intro h h1 h2 h3
    have c2 : ¬(20 < nf ∨ 500 < a + d) := by omega
    have c3 : ¬(a + d < 10) := by omega
    simp [getAnalysisPromptTemplate, h, c2, c3]

/-- Witness for C5 at concrete commits: a merge commit, the 600-line
25-file commit, the 4-line commit, and a mid-size standard commit. -/
theorem prompt_template_selection_witness :
    getAnalysisPromptTemplate true 3 10 10 = .mergeCommit ∧
    getAnalysisPromptTemplate false 25 600 0 = .largeCommit ∧
    getAnalysisPromptTemplate false 1 3 1 = .smallCommit ∧
    getAnalysisPromptTemplate false 5 60 40 = .standard :=
  ⟨(prompt_template_selection true 3 10 10).1 rfl,
   ((prompt_template_selection false 25 600 0).2.1 rfl (Or.inl (by decide))),
   ((prompt_template_selection false 1 3 1).2.2.1 rfl (by decide) (by decide)
     (by decide)),
   ((prompt_template_selection false 5 60 40).2.2.2.1 rfl (by decide)
     (by decide) (by decide))⟩

/-- C10: when the offline queue file exists but is unparseable, the next
enqueue starts from an empty queue and rewrites the file with only the new
entry (retry count 0); every payload previously in the corrupt file is
gone, and the enqueue completes normally. -/
theorem corrupt_queue_fresh_start {α : Type} (now : ℚ) (payload : α) :
    loadOfflineData (QueueFile.corrupt : QueueFile α) = [] ∧
    storeOffline QueueFile.corrupt now payload = [⟨now, payload, 0⟩] :=
  ⟨rfl, rfl⟩

/-- Counterexample to C8 as stated: 204 is a 2xx status, yet
_send_to_backend treats it as a delivery failure and the payload is
enqueued offline. -/
theorem delivery_2xx_cex :
    (200 ≤ 204 ∧ 204 < 300) ∧
    sendToBackend (.status 204) = false ∧
    (storeAnalysis (SendOutcome.status 204)
        (QueueFile.parsed ([] : List (OfflineEntry ℕ))) 0 7).2
      = QueueFile.parsed [⟨0, 7, 0⟩] := by
  refine ⟨⟨by norm_num, by norm_num⟩, rfl, rfl⟩

/-- C8 amended: only the statuses 200 and 201 count as successful delivery;
every other outcome (any other status, 2xx included, or a network failure)
is a delivery failure, in which case the mapped payload is appended to the
offline queue with retry count 0 and the queue file is rewritten
immediately; in particular this holds after HTTP 500. -/
theorem delivery_success_iff_200_or_201 {α : Type} (outcome : SendOutcome)
    (file : QueueFile α) (now : ℚ) (payload : α) :
    (sendToBackend outcome = true ↔
      outcome = .status 200 ∨ outcome = .status 201) ∧
    (sendToBackend outcome = false →
      storeAnalysis outcome file now payload
        = (false, .parsed (loadOfflineData file ++ [⟨now, payload, 0⟩]))) ∧
    storeAnalysis (SendOutcome.status 500) file now payload
      = (false, .parsed (loadOfflineData file ++ [⟨now, payload, 0⟩])) := by
  refine ⟨?_, ?_, ?_⟩
  · cases outcome with
    | status code => simp [sendToBackend]
    | networkError => simp [sendToBackend]
  · intro h
    simp [storeAnalysis, h, storeOffline]
  · simp [storeAnalysis, sendToBackend, storeOffline]

/-- Witness for C8 amended: HTTP 500 on an empty queue file enqueues the
payload with retry count 0. -/
theorem delivery_success_iff_200_or_201_witness :
    sendToBackend (SendOutcome.status 500) = false ∧
    storeAnalysis (SendOutcome.status 500)
        (QueueFile.parsed ([] : List (OfflineEntry ℕ))) 2 9
      = (false, QueueFile.parsed [⟨2, 9, 0⟩]) :=
  ⟨rfl,
   (delivery_success_iff_200_or_201 (SendOutcome.status 500)
     (QueueFile.parsed ([] : List (OfflineEntry ℕ))) 2 9).2.1 rfl⟩

/-- Helper: a capped entry (retry count at or above 5) always ends up in
the failed list of the retry sweep. -/
theorem mem_failed_of_capped {α : Type} (send : α → Bool)
    (entries : List (OfflineEntry α)) (e : OfflineEntry α)
    (hmem : e ∈ entries) (hcap : 5 ≤ e.retryCount) :
    e ∈ (retrySweepGo send entries).2.1 := by
  induction entries with
  | nil => cases hmem
  | cons x rest ih =>
      rcases List.mem_cons.mp hmem with h | h
      · subst h
        simp [retrySweepGo, hcap]
      · have hx := ih h
        by_cases h5 : 5 ≤ x.retryCount
        · simp [retrySweepGo, h5, hx]
        · by_cases hs : send x.data = true
          · simp [retrySweepGo, h5, hs, hx]
          · simp [retrySweepGo, h5, hs, hx]

/-- Counterexample to C9 as stated: a single entry whose retry count has
reached the cap of 5 is skipped (no delivery attempt: the attempted-payload
list is empty) but is still present in the persisted queue file after the
sweep, even though delivery would have succeeded. -/
theorem retry_cap_cex :
    retryOfflineData (fun _ => true)
        (QueueFile.parsed [(⟨0, 7, 5⟩ : OfflineEntry ℕ)])
      = (QueueFile.parsed [⟨0, 7, 5⟩], ⟨1, 0, 1⟩, []) := rfl

/-- C9 amended: an offline entry whose retry count has reached the cap of 5
stops being retried — no delivery attempt is made for it during a sweep
(the payloads attempted are exactly those of the entries below the cap) —
but the entry is retained in the persisted queue file after the sweep
completes, not removed from it. -/
theorem retry_cap_skips_but_retains {α : Type} (send : α → Bool)
    (entries : List (OfflineEntry α)) :
    (retrySweepGo send entries).2.2
      = (entries.filter (fun e => decide (e.retryCount < 5))).map
          (fun e => e.data) ∧
    ∀ e ∈ entries, 5 ≤ e.retryCount →
      ∃ l, (retryOfflineData send (.parsed entries)).1 = QueueFile.parsed l ∧
        e ∈ l := by
  constructor
  · induction entries with
    | nil => rfl
    | cons x rest ih =>
        by_cases h5 : 5 ≤ x.retryCount
        · have : ¬(x.retryCount < 5) := by omega
          simp [retrySweepGo, h5, List.filter_cons, this, ih]
        · have hlt : x.retryCount < 5 := by omega
          by_cases hs : send x.data = true
          · simp [retrySweepGo, h5, hs, List.filter_cons, hlt, ih]
          · simp [retrySweepGo, h5, hs, List.filter_cons, hlt, ih]
  · intro e hmem hcap
    have hfail : e ∈ (retrySweepGo send entries).2.1 :=
      mem_failed_of_capped send entries e hmem hcap
    match entries, hmem with
    | x :: rest, _ =>
        refine ⟨(retrySweepGo send (x :: rest)).2.1, ?_, hfail⟩
        have hne : (retrySweepGo send (x :: rest)).2.1.isEmpty = false := by
          cases hcase : (retrySweepGo send (x :: rest)).2.1 with
          | nil => rw [hcase] at hfail; cases hfail
          | cons a b => simp [hcase]
        simp [retryOfflineData, hne]

/-- Witness for C9 amended: the capped entry of the counterexample queue is
skipped and retained. -/
theorem retry_cap_skips_but_retains_witness :
    (retrySweepGo (fun _ => true) [(⟨0, 7, 5⟩ : OfflineEntry ℕ)]).2.2 = [] ∧
    ∃ l, (retryOfflineData (fun _ => true)
            (.parsed [(⟨0, 7, 5⟩ : OfflineEntry ℕ)])).1 = QueueFile.parsed l ∧
      (⟨0, 7, 5⟩ : OfflineEntry ℕ) ∈ l :=
  ⟨(retry_cap_skips_but_retains (fun _ => true) [⟨0, 7, 5⟩]).1,
   (retry_cap_skips_but_retains (fun _ => true) [⟨0, 7, 5⟩]).2
     ⟨0, 7, 5⟩ (List.mem_singleton.mpr rfl) (by norm_num)⟩

/-- C1: the governor never admits a remote call whose admission would push
the cumulative estimated cost strictly above the monthly ceiling: whenever
estimated_cost + 0.005 > monthly_budget, the budget check refuses, the
attempt returns no classification, no remote call is made, and the running
cost is unchanged. -/
theorem budget_check_refuses (cfg : AnalyzerConfig) (st : AnalyzerState)
    (id : String) (now : ℚ) (api : ApiResult)
    (hmiss : lookupCache st id = none)
    (h : cfg.monthlyBudget < st.estimatedCost + 1/200) :
    checkBudget cfg st = false ∧
    (analyzeCommit cfg st id now api).1 = none ∧
    (analyzeCommit cfg st id now api).2.2.remoteCalls = 0 ∧
    (analyzeCommit cfg st id now api).2.1.estimatedCost = st.estimatedCost := by
  have hb : ∀ times, checkBudget cfg { st with requestTimes := times } = false := by
    intro times; unfold checkBudget; exact if_pos h
  have hb0 : checkBudget cfg st = false := by unfold checkBudget; exact if_pos h
  refine ⟨hb0, ?_, ?_, ?_⟩ <;> simp [analyzeCommit, hmiss, hb]

/-- Witness for C1: with the running cost already at the ceiling of 5, the
next attempt is refused on budget grounds and makes no remote call. -/
theorem budget_check_refuses_witness :
    ((5 : ℚ) < 5 + 1/200 ∧ lookupCache ⟨[], [], 0, 5⟩ "c1" = none) ∧
    checkBudget ⟨3, 5⟩ ⟨[], [], 0, 5⟩ = false ∧
    (analyzeCommit ⟨3, 5⟩ ⟨[], [], 0, 5⟩ "c1" 0 .apiError).1 = none ∧
    (analyzeCommit ⟨3, 5⟩ ⟨[], [], 0, 5⟩ "c1" 0 .apiError).2.2.remoteCalls = 0 ∧
    (analyzeCommit ⟨3, 5⟩ ⟨[], [], 0, 5⟩ "c1" 0 .apiError).2.1.estimatedCost = 5 :=
  ⟨⟨by norm_num, rfl⟩,
   budget_check_refuses ⟨3, 5⟩ ⟨[], [], 0, 5⟩ "c1" 0 .apiError rfl (by norm_num)⟩

/-- Counterexample to C2 as stated: an admitted remote call whose response
is malformed JSON leaves the cumulative estimated cost unchanged, so cost
does not accrue per attempted call. -/
theorem failed_call_cost_cex :
    (analyzeCommit ⟨3, 5⟩ ⟨[], [], 0, 0⟩ "c1" 0 .badJson).2.2.remoteCalls = 1 ∧
    (analyzeCommit ⟨3, 5⟩ ⟨[], [], 0, 0⟩ "c1" 0 .badJson).2.1.estimatedCost = 0 ∧
    (0 : ℚ) ≠ 0 + 1/200 := by
  have hp : (pruneTimes (0 : ℚ) ([] : List ℚ)).length < 3 := by simp [pruneTimes]
  have hr : checkRateLimits 3 0 [] = (0, [0]) := by
    rw [@checkRateLimits_of_lt 3 0 [] hp]; simp [pruneTimes]
  refine ⟨?_, ?_, by norm_num⟩ <;>
    norm_num [analyzeCommit, lookupCache, hr, checkBudget, callOpenaiApi]

/-- C2 amended: for an admitted remote call, the cumulative estimated cost
increases by the fixed per-call estimate 0.005 only when the call returns a
schema-valid JSON response; an admitted call that fails (API error,
malformed JSON, or schema-invalid response) leaves the cost unchanged. -/
theorem cost_accrues_per_validated_call (cfg : AnalyzerConfig)
    (st : AnalyzerState) (id : String) (now : ℚ) (api : ApiResult)
    (hmiss : lookupCache st id = none)
    (hbudget : st.estimatedCost + 1/200 ≤ cfg.monthlyBudget) :
    (analyzeCommit cfg st id now api).2.2.remoteCalls = 1 ∧
    ((analyzeCommit cfg st id now api).1.isSome = true →
      (analyzeCommit cfg st id now api).2.1.estimatedCost
        = st.estimatedCost + 1/200) ∧
    ((analyzeCommit cfg st id now api).1 = none →
      (analyzeCommit cfg st id now api).2.1.estimatedCost
        = st.estimatedCost) := by
  have hnot : ¬(st.estimatedCost + 1/200 > cfg.monthlyBudget) := not_lt.mpr hbudget
  have hb : ∀ times, checkBudget cfg { st with requestTimes := times } = true := by
    intro times; unfold checkBudget; exact if_neg hnot
  cases api with
  | apiError =>
      refine ⟨?_, ?_, ?_⟩ <;> simp [analyzeCommit, hmiss, hb, callOpenaiApi]
  | badJson =>
      refine ⟨?_, ?_, ?_⟩ <;> simp [analyzeCommit, hmiss, hb, callOpenaiApi]
  | json j =>
      by_cases hv : validateAnalysisResponse j = true
      · refine ⟨?_, ?_, ?_⟩ <;>
          simp [analyzeCommit, hmiss, hb, callOpenaiApi, hv, updateCostTracking]
      · have hv2 : validateAnalysisResponse j = false := by
          simpa using hv
        refine ⟨?_, ?_, ?_⟩ <;>
          simp [analyzeCommit, hmiss, hb, callOpenaiApi, hv2]

/-- Witness for C2 amended: a validated call accrues 0.005; a malformed
response accrues nothing. -/
theorem cost_accrues_per_validated_call_witness :
    (analyzeCommit ⟨3, 5⟩ ⟨[], [], 0, 0⟩ "c1" 0
        (.json sampleValidResponse)).2.2.remoteCalls = 1 ∧
    (analyzeCommit ⟨3, 5⟩ ⟨[], [], 0, 0⟩ "c1" 0 .badJson).2.1.estimatedCost
      = 0 :=
  ⟨(cost_accrues_per_validated_call ⟨3, 5⟩ ⟨[], [], 0, 0⟩ "c1" 0
      (.json sampleValidResponse) rfl (by norm_num)).1,
   (cost_accrues_per_validated_call ⟨3, 5⟩ ⟨[], [], 0, 0⟩ "c1" 0 .badJson rfl
      (by norm_num)).2.2 (by
        have hp : (pruneTimes (0 : ℚ) ([] : List ℚ)).length < 3 := by
          simp [pruneTimes]
        have hr : checkRateLimits 3 0 [] = (0, [0]) := by
          rw [@checkRateLimits_of_lt 3 0 [] hp]; simp [pruneTimes]
        norm_num [analyzeCommit, lookupCache, hr, checkBudget, callOpenaiApi])⟩

/-- Helper: a cache hit returns the cached value unchanged, touching
nothing and performing no remote call, rate check or budget check. -/
theorem analyzeCommit_cache_hit (cfg : AnalyzerConfig) (st : AnalyzerState)
    (id : String) (now : ℚ) (api : ApiResult) (j : JVal)
    (h : lookupCache st id = some j) :
    analyzeCommit cfg st id now api = (some j, st, ⟨0, 0, 0⟩) := by
  unfold analyzeCommit
  rw [h]

/-- Helper: one analyze_commit call either leaves the cache unchanged, or
(on a cache miss that ends in a validated response) conses exactly the pair
(identity, response) onto it. -/
theorem analyzeCommit_cache_shape (cfg : AnalyzerConfig) (st : AnalyzerState)
    (id2 : String) (now : ℚ) (api : ApiResult) :
    (analyzeCommit cfg st id2 now api).2.1.cache = st.cache ∨
    (lookupCache st id2 = none ∧ ∃ j,
      (analyzeCommit cfg st id2 now api).2.1.cache = (id2, j) :: st.cache) := by
  cases hl : lookupCache st id2 with
  | some cached =>
      left
      rw [analyzeCommit_cache_hit cfg st id2 now api cached hl]
  | none =>
      by_cases hb : checkBudget cfg
        { st with requestTimes :=
            (checkRateLimits cfg.maxRequestsPerMinute now st.requestTimes).2 }
          = true
      · cases api with
        | apiError => left; simp [analyzeCommit, hl, hb, callOpenaiApi]
        | badJson => left; simp [analyzeCommit, hl, hb, callOpenaiApi]
        | json j =>
            by_cases hv : validateAnalysisResponse j = true
            · right
              refine ⟨rfl, j, ?_⟩
              simp [analyzeCommit, hl, hb, callOpenaiApi, hv, updateCostTracking]
            · left
              have hv2 : validateAnalysisResponse j = false := by simpa using hv
              simp [analyzeCommit, hl, hb, callOpenaiApi, hv2]
      · left
        have hb2 : checkBudget cfg
            { st with requestTimes :=
                (checkRateLimits cfg.maxRequestsPerMinute now st.requestTimes).2 }
              = false := by simpa using hb
        simp [analyzeCommit, hl, hb2]

/-- Helper: a successful classification leaves the identity bound to the
returned response in the cache. -/
theorem lookupCache_of_success (cfg : AnalyzerConfig) (st : AnalyzerState)
    (id : String) (now : ℚ) (api : ApiResult) (j : JVal)
    (st1 : AnalyzerState) (e : Effects)
    (h : analyzeCommit cfg st id now api = (some j, st1, e)) :
    lookupCache st1 id = some j := by
  cases hl : lookupCache st id with
  | some cached =>
      rw [analyzeCommit_cache_hit cfg st id now api cached hl] at h
      simp only [Prod.mk.injEq, Option.some.injEq] at h
      obtain ⟨hj, hst, -⟩ := h
      rw [← hst, hl, hj]
  | none =>
      by_cases hb : checkBudget cfg
        { st with requestTimes :=
            (checkRateLimits cfg.maxRequestsPerMinute now st.requestTimes).2 }
          = true
      · cases api with
        | apiError => simp [analyzeCommit, hl, hb, callOpenaiApi] at h
        | badJson => simp [analyzeCommit, hl, hb, callOpenaiApi] at h
        | json jr =>
            by_cases hv : validateAnalysisResponse jr = true
            · simp only [analyzeCommit, hl, hb, callOpenaiApi, hv, if_true,
                Prod.mk.injEq, Option.some.injEq] at h
              obtain ⟨hj, hst, -⟩ := h
              rw [← hst]
              simp [lookupCache, updateCostTracking, hj]
            · have hv2 : validateAnalysisResponse jr = false := by simpa using hv
              simp [analyzeCommit, hl, hb, callOpenaiApi, hv2] at h
      · have hb2 : checkBudget cfg
            { st with requestTimes :=
                (checkRateLimits cfg.maxRequestsPerMinute now st.requestTimes).2 }
              = false := by simpa using hb
        simp [analyzeCommit, hl, hb2] at h

/-- Helper: analyze_commit never removes or overwrites a cache binding: a
bound identity stays bound to the same response across any later call. -/
theorem lookupCache_mono (cfg : AnalyzerConfig) (st : AnalyzerState)
    (id id2 : String) (now : ℚ) (api : ApiResult) (j : JVal)
    (h : lookupCache st id = some j) :
    lookupCache (analyzeCommit cfg st id2 now api).2.1 id = some j := by
  rcases analyzeCommit_cache_shape cfg st id2 now api with hsh | ⟨hnone, j2, hsh⟩
  · unfold lookupCache
    rw [hsh]
    exact h
  · have hne : id ≠ id2 := by
      rintro rfl
      rw [h] at hnone
      exact Option.noConfusion hnone
    unfold lookupCache
    rw [hsh]
    have hbeq : (id == id2) = false := by simpa using hne
    simp [List.lookup, hbeq]
    exact h

/-- Helper: a cache binding survives any sequence of analyze_commit
invocations. -/
theorem lookupCache_runAnalyzer (cfg : AnalyzerConfig) (st : AnalyzerState)
    (id : String) (j : JVal) (reqs : List (String × ℚ × ApiResult))
    (h : lookupCache st id = some j) :
    lookupCache (runAnalyzer cfg st reqs) id = some j := by
  induction reqs generalizing st with
  | nil => exact h
  | cons r rs ih => exact ih _ (lookupCache_mono cfg st id r.1 r.2.1 r.2.2 j h)

/-- C7: classification is idempotent per identity.  Once an identity has
been successfully classified (the result is cached before being returned),
every later classification of that identity — after any interleaved
sequence of other requests — returns the identical cached result, leaves
the state untouched, and performs zero remote calls, zero rate-limit checks
and zero budget checks. -/
theorem classification_idempotent (cfg : AnalyzerConfig) (st : AnalyzerState)
    (id : String) (now : ℚ) (api : ApiResult) (j : JVal) (st1 : AnalyzerState)
    (e : Effects)
    (h : analyzeCommit cfg st id now api = (some j, st1, e)) :
    ∀ reqs now2 api2,
      analyzeCommit cfg (runAnalyzer cfg st1 reqs) id now2 api2
        = (some j, runAnalyzer cfg st1 reqs, ⟨0, 0, 0⟩) := by
  intro reqs now2 api2
  exact analyzeCommit_cache_hit cfg _ id now2 api2 j
    (lookupCache_runAnalyzer cfg st1 id j reqs
      (lookupCache_of_success cfg st id now api j st1 e h))

/-- Witness for C7: after the identity c1 is classified once with a valid
response, a second classification of c1 returns the identical cached
result with zero remote calls, rate checks and budget checks. -/
theorem classification_idempotent_witness :
    analyzeCommit ⟨3, 5⟩ ⟨[("c1", sampleValidResponse)], [0], 1, 1/200⟩ "c1"
        100 .apiError
      = (some sampleValidResponse,
         ⟨[("c1", sampleValidResponse)], [0], 1, 1/200⟩, ⟨0, 0, 0⟩) :=
  classification_idempotent ⟨3, 5⟩ ⟨[], [], 0, 0⟩ "c1" 0
    (.json sampleValidResponse) sampleValidResponse
    ⟨[("c1", sampleValidResponse)], [0], 1, 1/200⟩ ⟨1, 1, 1⟩
    (by
      have hp : (pruneTimes (0 : ℚ) ([] : List ℚ)).length < 3 := by
        simp [pruneTimes]
      have hr : checkRateLimits 3 0 [] = (0, [0]) := by
        rw [@checkRateLimits_of_lt 3 0 [] hp]; simp [pruneTimes]
      have e1 : ("confidence" == "label") = false := by decide
      have e2 : ("reasoning" == "label") = false := by decide
      have e3 : ("reasoning" == "confidence") = false := by decide
      have hlabel : PRODUCTIVITY_LABELS.contains "Bug Fixing" = true := by decide
      have hv : validateAnalysisResponse sampleValidResponse = true := by
        simp only [validateAnalysisResponse, sampleValidResponse, List.lookup,
          e1, e2, e3, beq_self_eq_true]
        norm_num [isNumericJVal, jvalNumValue]
        decide
      norm_num [analyzeCommit, lookupCache, hr, checkBudget, callOpenaiApi,
                hv, updateCostTracking])
    [] 100 .apiError

/-- C6: validation accepts a remote-model response exactly when the three
fields label, confidence and reasoning are all present, the label is a
member of the fixed productivity label set, and the confidence is numeric
(in Python's sense, where bool is an int subclass) with value in the closed
interval [0, 1]; a response violating any condition is rejected as a whole:
the classification attempt returns no result and nothing is written to the
cache. -/
theorem validation_gate (j : JVal) (cfg : AnalyzerConfig) (st : AnalyzerState)
    (id : String) (now : ℚ) (hmiss : lookupCache st id = none) :
    (validateAnalysisResponse j = true ↔
      ∃ fields, j = JVal.obj fields ∧
        (∃ s, fields.lookup "label" = some (.str s) ∧
          s ∈ PRODUCTIVITY_LABELS) ∧
        (∃ c, fields.lookup "confidence" = some c ∧ isNumericJVal c = true ∧
          0 ≤ jvalNumValue c ∧ jvalNumValue c ≤ 1) ∧
        (∃ r, fields.lookup "reasoning" = some r)) ∧
    (validateAnalysisResponse j = false →
      (analyzeCommit cfg st id now (.json j)).1 = none ∧
      (analyzeCommit cfg st id now (.json j)).2.1.cache = st.cache) := by
  constructor
  · constructor
    · intro h
      cases j with
      | obj fields =>
          refine ⟨fields, rfl, ?_⟩
          cases hl : fields.lookup "label" with
          | none => simp [validateAnalysisResponse, hl] at h
          | some lab =>
            cases hc : fields.lookup "confidence" with
            | none => simp [validateAnalysisResponse, hl, hc] at h
            | some conf =>
              cases hr : fields.lookup "reasoning" with
              | none => simp [validateAnalysisResponse, hl, hc, hr] at h
              | some reas =>
                  simp only [validateAnalysisResponse, hl, hc, hr,
                    Bool.and_eq_true, decide_eq_true_eq] at h
                  obtain ⟨⟨⟨hlab, hnum⟩, h0⟩, h1⟩ := h
                  cases lab with
                  | str s =>
                      exact ⟨⟨s, rfl, List.elem_iff.mp hlab⟩,
                        ⟨conf, rfl, hnum, h0, h1⟩, ⟨reas, rfl⟩⟩
                  | num q => exact absurd hlab (by simp)
                  | jbool b => exact absurd hlab (by simp)
                  | null => exact absurd hlab (by simp)
                  | arr xs => exact absurd hlab (by simp)
                  | obj fs => exact absurd hlab (by simp)
      | str s => simp [validateAnalysisResponse] at h
      | num q => simp [validateAnalysisResponse] at h
      | jbool b => simp [validateAnalysisResponse] at h
      | null => simp [validateAnalysisResponse] at h
      | arr xs => simp [validateAnalysisResponse] at h
    · rintro ⟨fields, rfl, ⟨s, hl, hs⟩, ⟨c, hc, hn, h0, h1⟩, ⟨r, hr⟩⟩
      simp [validateAnalysisResponse, hl, hc, hr, hn, h0, h1, hs]
  · intro hf
    have hcall : ∀ st2, callOpenaiApi st2 (.json j) = (none, st2) := by
      intro st2
      simp [callOpenaiApi, hf]
    by_cases hb : checkBudget cfg
      { st with requestTimes :=
          (checkRateLimits cfg.maxRequestsPerMinute now st.requestTimes).2 }
        = true
    · constructor <;> simp [analyzeCommit, hmiss, hb, hcall]
    · have hb2 : checkBudget cfg
          { st with requestTimes :=
              (checkRateLimits cfg.maxRequestsPerMinute now st.requestTimes).2 }
            = false := by simpa using hb
      constructor <;> simp [analyzeCommit, hmiss, hb2]

/-- Witness for C6: a response whose label is outside the fixed set fails
validation, and the classification attempt with that response returns no
result and writes nothing to the cache. -/
theorem validation_gate_witness :
    validateAnalysisResponse sampleInvalidResponse = false ∧
    (analyzeCommit ⟨3, 5⟩ ⟨[], [], 0, 0⟩ "c1" 0
        (.json sampleInvalidResponse)).1 = none ∧
    (analyzeCommit ⟨3, 5⟩ ⟨[], [], 0, 0⟩ "c1" 0
        (.json sampleInvalidResponse)).2.1.cache = [] :=
  ⟨by decide,
   (validation_gate sampleInvalidResponse ⟨3, 5⟩ ⟨[], [], 0, 0⟩ "c1" 0
      rfl).2 (by decide) |>.1,
   (validation_gate sampleInvalidResponse ⟨3, 5⟩ ⟨[], [], 0, 0⟩ "c1" 0
      rfl).2 (by decide) |>.2⟩

/-- Helper: filtering with a weaker predicate keeps at least as many
elements. -/
theorem length_filter_mono {α : Type} {p q : α → Bool} (l : List α)
    (h : ∀ a ∈ l, p a = true → q a = true) :
    (l.filter p).length ≤ (l.filter q).length := by
  induction l with
  | nil => simp
  | cons x xs ih =>
      have ih2 := ih (fun a ha hp => h a (List.mem_cons_of_mem x ha) hp)
      by_cases hp : p x = true
      · have hq := h x (List.mem_cons_self x xs) hp
        simp only [List.filter_cons, hp, hq, if_true, List.length_cons]
        exact Nat.succ_le_succ ih2
      · have hp2 : p x = false := by simpa using hp
        by_cases hq : q x = true
        · simp only [List.filter_cons, hp2, hq, Bool.false_eq_true, if_false,
            if_true, List.length_cons]
          exact le_trans ih2 (Nat.le_succ _)
        · have hq2 : q x = false := by simpa using hq
          simpa only [List.filter_cons, hp2, hq2, Bool.false_eq_true,
            if_false] using ih2

/-- Helper: membership in a pruned timestamp list. -/
theorem mem_pruneTimes {now t : ℚ} {l : List ℚ} :
    t ∈ pruneTimes now l ↔ t ∈ l ∧ now - t < 60 := by
  simp [pruneTimes]

/-- Helper: pruning at a later time subsumes pruning at an earlier one —
exactly the effect of the re-prune done by the recursive call of
_check_rate_limits after its sleep. -/
theorem pruneTimes_pruneTimes {s s2 : ℚ} (h : s ≤ s2) (l : List ℚ) :
    pruneTimes s2 (pruneTimes s l) = pruneTimes s2 l := by
  unfold pruneTimes
  rw [List.filter_filter]
  apply List.filter_congr
  intro t ht
  by_cases h2 : s2 - t < 60
  · have h1 : s - t < 60 := by linarith
    simp [h1, h2]
  · simp [h2]

/-- Helper: one wait round of the rate-limit loop: with a full window the
loop sleeps and re-runs on the re-pruned list at the later clock. -/
theorem rateLoopGo_step {maxReq : ℕ} {now t0 : ℚ} {rest : List ℚ}
    (hge : maxReq ≤ (t0 :: rest).length) (hwait : 0 < 60 - (now - t0)) :
    rateLoopGo maxReq now (t0 :: rest)
      = rateLoopGo maxReq (now + (60 - (now - t0)))
          (pruneTimes (now + (60 - (now - t0))) (t0 :: rest)) := by
  rw [rateLoopGo.eq_def]
  rw [if_pos hge]
  exact if_pos hwait

/-- Helper: when the pruned window is full, _check_rate_limits waits until
the clock reaches (head of pruned window) + 60 — the exact moment the
oldest retained timestamp leaves the 60-second window — and then re-runs
the whole check from scratch at that time. -/
theorem checkRateLimits_full_window {maxReq : ℕ} {now : ℚ} {times : List ℚ}
    {t0 : ℚ} {rest : List ℚ} (hp : pruneTimes now times = t0 :: rest)
    (hge : maxReq ≤ (t0 :: rest).length) :
    checkRateLimits maxReq now times
      = checkRateLimits maxReq (t0 + 60) times := by
  have ht0 : t0 ∈ pruneTimes now times := by
    rw [hp]; exact List.mem_cons_self t0 rest
  have hlt60 : now - t0 < 60 := (mem_pruneTimes.mp ht0).2
  have hwait : 0 < 60 - (now - t0) := by linarith
  have hle2 : now ≤ t0 + 60 := by linarith
  have heq : now + (60 - (now - t0)) = t0 + 60 := by ring
  unfold checkRateLimits
  rw [hp, rateLoopGo_step hge hwait, heq, ← hp, pruneTimes_pruneTimes hle2]

/-- Helper: full behaviour of _check_rate_limits, by induction on the size
of the pruned window: it returns some admission time t2 at or after the
entry clock; the new timestamp list is the original list pruned at t2 with
t2 appended; and at the moment of admission the pruned window held strictly
fewer than the ceiling many timestamps. -/
theorem rateLoopGo_spec (maxReq : ℕ) (hm : 0 < maxReq) :
    ∀ (n : ℕ) (now : ℚ) (times : List ℚ),
      (pruneTimes now times).length ≤ n →
      (∀ t ∈ times, t ≤ now) →
      ∃ t2, now ≤ t2 ∧
        checkRateLimits maxReq now times
          = (t2, pruneTimes t2 times ++ [t2]) ∧
        (pruneTimes t2 times).length < maxReq := by
  intro n
  induction n with
  | zero =>
      intro now times hlen hle
      have hlt : (pruneTimes now times).length < maxReq := by omega
      exact ⟨now, le_refl now,
        by unfold checkRateLimits; rw [rateLoopGo_of_lt hlt], hlt⟩
  | succ n ih =>
      intro now times hlen hle
      by_cases hlt : (pruneTimes now times).length < maxReq
      · exact ⟨now, le_refl now,
          by unfold checkRateLimits; rw [rateLoopGo_of_lt hlt], hlt⟩
      · have hge : maxReq ≤ (pruneTimes now times).length := not_lt.mp hlt
        cases hp : pruneTimes now times with
        | nil => rw [hp] at hge; simp at hge; omega
        | cons t0 rest =>
            have ht0 : t0 ∈ pruneTimes now times := by
              rw [hp]; exact List.mem_cons_self t0 rest
            have hlt60 : now - t0 < 60 := (mem_pruneTimes.mp ht0).2
            have hle2 : now ≤ t0 + 60 := by linarith
            have hge2 : maxReq ≤ (t0 :: rest).length := hp ▸ hge
            have hstep := checkRateLimits_full_window hp hge2
            have hlen2 : (pruneTimes (t0 + 60) times).length ≤ n := by
              have h1 : pruneTimes (t0 + 60) times
                  = pruneTimes (t0 + 60) (t0 :: rest) := by
                rw [← hp, pruneTimes_pruneTimes hle2]
              have hcond : (decide (t0 + 60 - t0 < 60)) = false := by
                have h60 : t0 + 60 - t0 = 60 := by ring
                simp [h60]
              have h2 : (pruneTimes (t0 + 60) (t0 :: rest)).length
                  ≤ rest.length := by
                unfold pruneTimes
                rw [List.filter_cons]
                simp only [hcond, Bool.false_eq_true, if_false]
                exact List.length_filter_le _ _
              have h3 : (pruneTimes now times).length = rest.length + 1 := by
                rw [hp]; rfl
              rw [h1]
              omega
            have hle3 : ∀ t ∈ times, t ≤ t0 + 60 := fun t ht =>
              le_trans (hle t ht) hle2
            obtain ⟨t2, ht2a, ht2b, ht2c⟩ := ih (t0 + 60) times hlen2 hle3
            exact ⟨t2, le_trans hle2 ht2a, hstep.trans ht2b, ht2c⟩

/-- Helper: windowCount distributes over append. -/
theorem windowCount_append (A B : List ℚ) (T : ℚ) :
    windowCount (A ++ B) T = windowCount A T + windowCount B T := by
  simp [windowCount, List.filter_append]

/-- Helper: for a list of timestamps all at most t2, the trailing window at
any T at or after t2 holds no more entries than the prune at t2 keeps. -/
theorem windowCount_le_prune {A : List ℚ} {t2 T : ℚ}
    (_hA : ∀ t ∈ A, t ≤ t2) (hT : t2 ≤ T) :
    windowCount A T ≤ (pruneTimes t2 A).length := by
  unfold windowCount pruneTimes
  apply length_filter_mono
  intro t ht hcond
  simp only [Bool.and_eq_true, decide_eq_true_eq] at hcond
  simp only [decide_eq_true_eq]
  linarith [hcond.1, hcond.2]

/-- Helper: the run invariant of the governor.  If the recorded state is
exactly the admitted history pruned at the time of the last admission, and
every trailing window of the history is within the ceiling, the same holds
after any further sequence of admission requests. -/
theorem runGov_invariant (maxReq : ℕ) (hm : 0 < maxReq) :
    ∀ (ds : List ℚ), (∀ d ∈ ds, 0 ≤ d) →
    ∀ (A : List ℚ) (lastT : ℚ),
      (∀ t ∈ A, t ≤ lastT) →
      (∀ T, windowCount A T ≤ maxReq) →
      ∀ T, windowCount (A ++ runGov maxReq lastT (pruneTimes lastT A) ds) T
        ≤ maxReq := by
  intro ds
  induction ds with
  | nil =>
      intro _ A lastT _hA hW T
      simpa [runGov] using hW T
  | cons d rest ih =>
      intro hds A lastT hA hW T
      have hd : 0 ≤ d := hds d (List.mem_cons_self d rest)
      have hds2 : ∀ x ∈ rest, 0 ≤ x := fun x hx =>
        hds x (List.mem_cons_of_mem d hx)
      have hbound : ∀ t ∈ pruneTimes lastT A, t ≤ lastT + d := by
        intro t ht
        have := hA t (mem_pruneTimes.mp ht).1
        linarith
      obtain ⟨t2, hta, htb, htc⟩ := rateLoopGo_spec maxReq hm
        ((pruneTimes (lastT + d) (pruneTimes lastT A)).length) (lastT + d)
        (pruneTimes lastT A) (le_refl _) hbound
      have hlastT : lastT ≤ t2 := by linarith
      have hcompose : pruneTimes t2 (pruneTimes lastT A) = pruneTimes t2 A :=
        pruneTimes_pruneTimes hlastT A
      have hgov : runGov maxReq lastT (pruneTimes lastT A) (d :: rest)
          = t2 :: runGov maxReq t2 (pruneTimes t2 A ++ [t2]) rest := by
        simp only [runGov]
        rw [htb, hcompose]
      have hstate : pruneTimes t2 A ++ [t2] = pruneTimes t2 (A ++ [t2]) := by
        unfold pruneTimes
        rw [List.filter_append]
        have hself : (decide (t2 - t2 < 60)) = true := by norm_num
        simp [List.filter_cons, hself]
      have hA2 : ∀ t ∈ A ++ [t2], t ≤ t2 := by
        intro t ht
        rcases List.mem_append.mp ht with h | h
        · exact le_trans (hA t h) hlastT
        · simp only [List.mem_singleton] at h
          rw [h]
      have hW2 : ∀ T2, windowCount (A ++ [t2]) T2 ≤ maxReq := by
        intro T2
        rw [windowCount_append]
        by_cases hwin : T2 - 60 < t2 ∧ t2 ≤ T2
        · have h1 : windowCount [t2] T2 = 1 := by
            simp [windowCount, hwin.1, hwin.2]
          have h2 : windowCount A T2 ≤ (pruneTimes t2 A).length :=
            windowCount_le_prune (fun t ht => le_trans (hA t ht) hlastT)
              hwin.2
          have htc2 : (pruneTimes t2 A).length < maxReq := hcompose ▸ htc
          omega
        · have h1 : windowCount [t2] T2 = 0 := by
            rcases not_and_or.mp hwin with h | h <;> simp [windowCount, h]
          have := hW T2
          omega
      have final := ih hds2 (A ++ [t2]) t2 hA2 hW2 T
      rw [← hstate] at final
      rw [hgov]
      exact (List.append_assoc A [t2] _) ▸ final

/-- C4: for any sequence of admission requests processed by one governor
instance, the number of admitted requests whose recorded timestamps fall
inside any trailing 60-second window never exceeds the configured
per-minute ceiling; and when the pruned window is full, the check waits
exactly until the oldest retained timestamp (the head of the pruned list)
exits the window and then re-evaluates from scratch at that moment. -/
theorem rate_window_invariant (maxReq : ℕ) (hm : 0 < maxReq) :
    (∀ (now0 : ℚ) (ds : List ℚ), (∀ d ∈ ds, 0 ≤ d) →
      ∀ T, windowCount (runGov maxReq now0 [] ds) T ≤ maxReq) ∧
    (∀ (now : ℚ) (times : List ℚ) (t0 : ℚ) (rest : List ℚ),
      pruneTimes now times = t0 :: rest →
      maxReq ≤ (t0 :: rest).length →
      checkRateLimits maxReq now times
        = checkRateLimits maxReq (t0 + 60) times) := by
  constructor
  · intro now0 ds hds T
    have h0 : ∀ t ∈ ([] : List ℚ), t ≤ now0 := by simp
    have hW0 : ∀ T2, windowCount ([] : List ℚ) T2 ≤ maxReq := by
      intro T2
      simp [windowCount]
    simpa using runGov_invariant maxReq hm ds hds [] now0 h0 hW0 T
  · intro now times t0 rest hp hge
    exact checkRateLimits_full_window hp hge

/-- Witness for C4: the ceiling 3 is respected by a run of four
back-to-back requests from an empty window, at a sample window end. -/
theorem rate_window_invariant_witness :
    windowCount (runGov 3 0 [] [0, 0, 0, 0]) 30 ≤ 3 :=
  (rate_window_invariant 3 (by norm_num)).1 0 [0, 0, 0, 0] (by norm_num) 30

/-- Counterexample to C3 as stated: an attempt refused on budget grounds
does not leave the timestamp list unchanged-up-to-pruning: starting from an
empty list (whose pruning is empty), the refused attempt leaves the list
holding the attempt timestamp. -/
theorem budget_refusal_timestamp_cex :
    checkBudget ⟨3, 5⟩ ⟨[], [], 0, 5⟩ = false ∧
    pruneTimes 0 ([] : List ℚ) = [] ∧
    (analyzeCommit ⟨3, 5⟩ ⟨[], [], 0, 5⟩ "c1" 0 .apiError).2.1.requestTimes
      = [0] ∧
    ([0] : List ℚ) ≠ [] := by
  have hp : (pruneTimes (0 : ℚ) ([] : List ℚ)).length < 3 := by
    simp [pruneTimes]
  have hr : checkRateLimits 3 0 [] = (0, [0]) := by
    rw [@checkRateLimits_of_lt 3 0 [] hp]; simp [pruneTimes]
  refine ⟨by norm_num [checkBudget], rfl, ?_, by simp⟩
  norm_num [analyzeCommit, lookupCache, hr, checkBudget]

/-- C3 amended: a classification attempt refused on budget grounds still
records a timestamp for the attempt, because the rate check runs first and
appends its admission time before the budget check refuses: afterwards the
timestamp list is the original list pruned at the admission time with the
admission time appended. -/
theorem budget_refusal_still_records_timestamp (cfg : AnalyzerConfig)
    (st : AnalyzerState) (id : String) (now : ℚ) (api : ApiResult)
    (hmiss : lookupCache st id = none)
    (hbudget : cfg.monthlyBudget < st.estimatedCost + 1/200)
    (hm : 0 < cfg.maxRequestsPerMinute)
    (hle : ∀ t ∈ st.requestTimes, t ≤ now) :
    ∃ t2, now ≤ t2 ∧
      (analyzeCommit cfg st id now api).1 = none ∧
      (analyzeCommit cfg st id now api).2.2.remoteCalls = 0 ∧
      (analyzeCommit cfg st id now api).2.1.requestTimes
        = pruneTimes t2 st.requestTimes ++ [t2] := by
  obtain ⟨t2, ht1, ht2, ht3⟩ := rateLoopGo_spec cfg.maxRequestsPerMinute hm
    ((pruneTimes now st.requestTimes).length) now st.requestTimes
    (le_refl _) hle
  have hb : ∀ times, checkBudget cfg { st with requestTimes := times }
      = false := by
    intro times; unfold checkBudget; exact if_pos hbudget
  refine ⟨t2, ht1, ?_, ?_, ?_⟩ <;>
    simp [analyzeCommit, hmiss, hb, ht2]

/-- Witness for C3 amended: the refused attempt of the counterexample
records its admission timestamp. -/
theorem budget_refusal_still_records_timestamp_witness :
    ∃ t2, (0 : ℚ) ≤ t2 ∧
      (analyzeCommit ⟨3, 5⟩ ⟨[], [], 0, 5⟩ "c1" 0 .apiError).1 = none ∧
      (analyzeCommit ⟨3, 5⟩ ⟨[], [], 0, 5⟩ "c1" 0 .apiError).2.2.remoteCalls
        = 0 ∧
      (analyzeCommit ⟨3, 5⟩ ⟨[], [], 0, 5⟩ "c1" 0
          .apiError).2.1.requestTimes
        = pruneTimes t2 [] ++ [t2] :=
  budget_refusal_still_records_timestamp ⟨3, 5⟩ ⟨[], [], 0, 5⟩ "c1" 0
    .apiError rfl (by norm_num) (by norm_num) (by simp)

end Claims
